import Mathlib

/-!
Verification development for the universal-middleware core.

This file gives a shallow embedding, in Lean 4, of the parts of the Go
source that the specification's testable properties talk about:

* the Redis-backed cache engine (`RedisCache` in internal/command, package
  cache): `Get`, `Set`, `SetNegative`, `GetOrFetch`;
* the outbox store (`InMemoryRepository` / `Repository` in
  internal/command/outbox) and the relay's `processBatch`;
* the command ingress (`CommandService.SubmitCommand`,
  `checkIdempotency`, `storeInOutbox`, `storeIdempotencyKey`);
* the command processor (`Processor.RegisterHandler`, `Processor.Process`,
  `Command.IsRetryable`, `calculateNextRetry`) and its `Validator`;
* the real-time hub's fan-out (`EnhancedHub.broadcastMessage`).

Modelling decisions (stated once, used throughout):

* Go `time.Duration` and timestamps are `Int` nanoseconds; `time.Now()`
  becomes an explicit `now : Int` parameter.
* The Redis substrate is a key/value store with absolute expiry per key;
  a read is `ok value`, `nil` (redis.Nil, key absent or expired) or
  `fail e` (any other client error).  Substrate mutation errors are not
  injected where the source logs and swallows them.
* `crypto/rand.Int(rand.Reader, big.NewInt(n))` is a draw `some j` with
  `j < n`, or `none` when the draw errors (the source then skips jitter).
* `golang.org/x/sync/singleflight` is third-party code; `Group.Do` is
  modelled by its documented contract: all concurrent callers for one key
  share a single execution of the function and every caller receives that
  execution's result.
* External collaborators that return errors (Kafka publisher, command
  handlers, the go-playground validator's per-tag format checks) are
  modelled as explicit function parameters returning `Option`/`Bool`,
  mirroring the Go interfaces they sit behind.
* Go maps are association lists keyed by `String`; pointer identity of
  hub clients is modelled by a client key.
-/

namespace UMW

/-- Byte strings (Go `[]byte`) as lists of naturals. -/
abbrev Bytes := List Nat

/-- Nanoseconds in one second (`time.Second`). -/
def nsPerSecond : Int := 1000000000

/-- Go map read over an association list: the value at the first entry
with the key, if any. -/
def alookup {β : Type} : List (String × β) → String → Option β
  | [], _ => none
  | (k0, v) :: t, k => if k = k0 then some v else alookup t k

/-- Drop every entry with the given key (the erasure half of a Go map
assignment). -/
def removeKey {β : Type} (l : List (String × β)) (k : String) :
    List (String × β) :=
  l.filter (fun p => p.1 ≠ k)

end UMW

namespace UMWCache

open UMW

/-- One stored substrate entry: value bytes plus absolute expiry. -/
structure Entry where
  value : Bytes
  expiresAt : Int
deriving DecidableEq, Repr

/-- The shared key/value substrate (Redis), keyed by string. -/
abbrev KV := List (String × Entry)

/-- Outcome of a substrate read: value, redis.Nil, or a transport/server
error other than redis.Nil. -/
inductive RedisReply where
  | ok (v : Bytes)
  | nil
  | fail (e : String)
deriving DecidableEq, Repr

/-- Errors surfaced by the cache engine: the two sentinels declared at the
top of the cache source (`ErrCacheMiss`, `ErrNotFound`) plus wrapped
substrate or loader errors. -/
inductive GoErr where
  | errCacheMiss
  | errNotFound
  | other (msg : String)
deriving DecidableEq, Repr

/-- Result metadata of a cache read, from the source's `CacheMeta` struct;
`status` ranges over "hit", "miss", "neg" and (in the source's error
branch) "error". -/
structure CacheMeta where
  status : String
deriving DecidableEq, Repr

/-- Cache engine configuration: `baseTTL` and `negativeTTL` fields of
`RedisCache`. -/
structure CacheConfig where
  baseTTL : Int
  negativeTTL : Int
deriving DecidableEq, Repr

/-- Substrate read at time `now`: a present, unexpired key returns its
value; an absent or expired key is redis.Nil. -/
def kvGet (s : KV) (now : Int) (k : String) : RedisReply :=
  match alookup s k with
  | some e => if now < e.expiresAt then .ok e.value else .nil
  | none => .nil

/-- Substrate write with relative TTL at time `now` (Redis SET with
expiry): replaces any previous entry for the key. -/
def kvSet (s : KV) (now : Int) (k : String) (v : Bytes) (ttl : Int) : KV :=
  (k, ⟨v, now + ttl⟩) :: removeKey s k

/-- RedisCache.Get, as a pure function of the two substrate replies it can
issue (base key, then `key + ":neg"`; the second reply is only consulted
in the redis.Nil branch, exactly as in the source):

* base key present: value with status "hit", no error;
* base key Nil and negative key present: status "neg" with ErrNotFound;
* base key Nil otherwise: status "miss" with ErrCacheMiss;
* any other base-key error: status "error" with that error. -/
def cacheGetPure (keyReply negReply : RedisReply) :
    Option Bytes × CacheMeta × Option GoErr :=
  match keyReply with
  | .ok v => (some v, ⟨"hit"⟩, none)
  | .nil =>
    match negReply with
    | .ok _ => (none, ⟨"neg"⟩, some .errNotFound)
    | _ => (none, ⟨"miss"⟩, some .errCacheMiss)
  | .fail e => (none, ⟨"error"⟩, some (.other e))

/-- RedisCache.Get against a healthy substrate state at time `now`. -/
def cacheGet (s : KV) (now : Int) (key : String) :
    Option Bytes × CacheMeta × Option GoErr :=
  cacheGetPure (kvGet s now key) (kvGet s now (key ++ ":neg"))

/-- The expiry chosen by RedisCache.Set: the supplied TTL when the
variadic argument is present, else `baseTTL`; the random whole-second
jitter `rand.Int(rand.Reader, big.NewInt(300))` is added only when the
draw succeeds AND no explicit TTL was supplied (`err == nil && len(ttl)
== 0`). `jitterDraw = none` models a failed random draw. -/
def setExpiry (baseTTL : Int) (ttl : Option Int) (jitterDraw : Option Nat) : Int :=
  let expiry := match ttl with
    | some t => t
    | none => baseTTL
  match jitterDraw, ttl with
  | some j, none => expiry + (j : Int) * nsPerSecond
  | _, _ => expiry

/-- RedisCache.Set against the substrate state. -/
def cacheSet (cfg : CacheConfig) (s : KV) (now : Int) (key : String)
    (value : Bytes) (ttl : Option Int) (jitterDraw : Option Nat) : KV :=
  kvSet s now key value (setExpiry cfg.baseTTL ttl jitterDraw)

/-- The negative sentinel value "1" written by SetNegative. -/
def negSentinel : Bytes := [49]

/-- RedisCache.SetNegative: writes `key + ":neg"` with `negativeTTL`. -/
def setNegative (cfg : CacheConfig) (s : KV) (now : Int) (key : String) : KV :=
  kvSet s now (key ++ ":neg") negSentinel cfg.negativeTTL

/-- Outcome of the caller-supplied loader (`fetcher`): data, an error for
which `errors.Is(err, ErrNotFound)` holds, or any other error. -/
inductive FetchResult where
  | ok (data : Bytes)
  | notFound
  | err (e : String)
deriving DecidableEq, Repr

/-- Result of a GetOrFetch call: final substrate state, returned value,
meta, error, and how many times the loader was invoked. -/
structure GOFResult where
  state : KV
  value : Option Bytes
  meta : CacheMeta
  err : Option GoErr
  fetcherCalls : Nat
deriving DecidableEq, Repr

/-- The body of the singleflight closure inside RedisCache.GetOrFetch:
double-check the cache, then fetch from source on a miss.  Returns the
new substrate state, the closure's `(interface{}, error)` result and the
number of loader invocations.  On loader not-found a negative entry is
written and ErrNotFound returned; on any other loader error no cache
mutation occurs; on success the value is stored with an explicit
`c.baseTTL` (so, per `setExpiry`, without jitter). -/
def gofDoBody (cfg : CacheConfig) (s : KV) (now : Int) (key : String)
    (fetchOutcome : FetchResult) : KV × Option Bytes × Option GoErr × Nat :=
  match cacheGet s now key with
  | (v, _, none) => (s, v, none, 0)
  | _ =>
    match fetchOutcome with
    | .notFound => (setNegative cfg s now key, none, some .errNotFound, 1)
    | .err e => (s, none, some (.other e), 1)
    | .ok data => (cacheSet cfg s now key data (some cfg.baseTTL) none, some data, none, 1)

/-- RedisCache.GetOrFetch for a single caller: try the cache; on a present
entry or a negative entry return immediately; otherwise run the
singleflight closure and map its result through the source's tail
(`err != nil` gives a "miss" meta with the error, else "miss" with the
data). -/
def getOrFetch (cfg : CacheConfig) (s : KV) (now : Int) (key : String)
    (fetchOutcome : FetchResult) : GOFResult :=
  match cacheGet s now key with
  | (v, meta, none) => ⟨s, v, meta, none, 0⟩
  | (_, meta, some .errNotFound) => ⟨s, none, meta, some .errNotFound, 0⟩
  | _ =>
    match gofDoBody cfg s now key fetchOutcome with
    | (s1, _, some e, calls) => ⟨s1, none, ⟨"miss"⟩, some e, calls⟩
    | (s1, v, none, calls) => ⟨s1, v, ⟨"miss"⟩, none, calls⟩

/-- N concurrent GetOrFetch callers for one key.  Every caller issues its
initial Get against the same state (they run concurrently); callers that
fall through to singleflight coalesce into ONE shared execution of the
closure (the documented `Group.Do` contract), and every caller receives
that execution's result through the source's common tail.  Returns the
final state, the per-caller results, and the total loader invocations. -/
def getOrFetchConcurrent (cfg : CacheConfig) (s : KV) (now : Int) (key : String)
    (fetchOutcome : FetchResult) (n : Nat) :
    KV × List (Option Bytes × CacheMeta × Option GoErr) × Nat :=
  match cacheGet s now key with
  | (v, meta, none) => (s, List.replicate n (v, meta, none), 0)
  | (_, meta, some .errNotFound) => (s, List.replicate n (none, meta, some .errNotFound), 0)
  | _ =>
    match gofDoBody cfg s now key fetchOutcome with
    | (s1, _, some e, calls) => (s1, List.replicate n (none, ⟨"miss"⟩, some e), calls)
    | (s1, v, none, calls) => (s1, List.replicate n (v, ⟨"miss"⟩, none), calls)

end UMWCache

namespace UMWOutbox

/-- Outbox message status, from the outbox package constants. -/
inductive OStatus where
  | pending
  | published
  | failed
deriving DecidableEq, Repr

/-- An outbox message (outbox.Message).  Payload is kept opaque as a
string; timestamps are Int nanoseconds. -/
structure Message where
  id : String
  aggregateType : String
  aggregateId : String
  eventType : String
  payload : String
  topic : String
  status : OStatus
  createdAt : Int
  publishedAt : Option Int
  retryCount : Nat
  errorMessage : String
deriving DecidableEq, Repr

/-- The in-memory outbox repository (InMemoryRepository): a map from id to
message plus the insertion-order list of ids.  The SQL repository's
MarkAs* / GetPending / Cleanup statements have the same per-operation
semantics over rows keyed by id. -/
structure Repo where
  messages : List (String × Message)
  order : List String
deriving DecidableEq, Repr

/-- The empty repository (NewInMemoryRepository). -/
def emptyRepo : Repo := ⟨[], []⟩

/-- Go map assignment `m[k] = v` over an association list: replaces any
entry with the key. -/
def mapPut (msgs : List (String × Message)) (id : String) (m : Message) :
    List (String × Message) :=
  (id, m) :: UMW.removeKey msgs id

/-- Go map update of the entry at `id`, when present (the
`if m, ok := r.messages[id]; ok { mutate m }` pattern). -/
def mapUpdate (msgs : List (String × Message)) (id : String)
    (f : Message → Message) : List (String × Message) :=
  msgs.map (fun p => if p.1 = id then (p.1, f p.2) else p)

/-- InMemoryRepository.Save: forces status to pending, stores the message
under its id (overwriting any previous entry with that id, as Go map
assignment does) and appends the id to the order list. -/
def save (r : Repo) (msg : Message) : Repo :=
  ⟨mapPut r.messages msg.id { msg with status := .pending }, r.order ++ [msg.id]⟩

/-- The loop body of InMemoryRepository.GetPendingMessages: walk the order
list while the running count is below `limit`, collecting messages that
exist and are pending. -/
def getPendingAux (msgs : List (String × Message)) :
    List String → Nat → List Message
  | _, 0 => []
  | [], _ => []
  | id :: rest, Nat.succ l =>
    match UMW.alookup msgs id with
    | some m =>
      if m.status = .pending then m :: getPendingAux msgs rest l
      else getPendingAux msgs rest (Nat.succ l)
    | none => getPendingAux msgs rest (Nat.succ l)

/-- InMemoryRepository.GetPendingMessages (and the SQL
`WHERE status = 'pending' ORDER BY created_at ASC LIMIT n`). -/
def getPending (r : Repo) (limit : Nat) : List Message :=
  getPendingAux r.messages r.order limit

/-- MarkAsPublished at time `now`: sets status published and stamps
publishedAt; no-op when the id is absent. -/
def markPublished (r : Repo) (id : String) (now : Int) : Repo :=
  ⟨mapUpdate r.messages id (fun m => { m with status := .published, publishedAt := some now }),
    r.order⟩

/-- MarkAsFailed: increments the retry count, stores the error text and
sets status failed; no-op when the id is absent. -/
def markFailed (r : Repo) (id : String) (e : String) : Repo :=
  ⟨mapUpdate r.messages id
      (fun m => { m with retryCount := m.retryCount + 1, errorMessage := e, status := .failed }),
    r.order⟩

/-- The published-before-cutoff test of CleanupPublishedMessages. -/
def cleanupHits (cutoff : Int) (m : Message) : Bool :=
  m.status = .published &&
    match m.publishedAt with
    | some t => t < cutoff
    | none => false

/-- The loop of CleanupPublishedMessages: walk the order list; drop ids
whose message is gone; delete (and count) published messages older than
the cutoff; keep the rest in order. -/
def cleanupAux (cutoff : Int) :
    List String → List (String × Message) →
    List (String × Message) × List String × Nat
  | [], msgs => (msgs, [], 0)
  | id :: rest, msgs =>
    match UMW.alookup msgs id with
    | none => cleanupAux cutoff rest msgs
    | some m =>
      if cleanupHits cutoff m then
        let out := cleanupAux cutoff rest (UMW.removeKey msgs id)
        (out.1, out.2.1, out.2.2 + 1)
      else
        let out := cleanupAux cutoff rest msgs
        (out.1, id :: out.2.1, out.2.2)

/-- CleanupPublishedMessages with the cutoff timestamp precomputed
(`time.Now().Add(-olderThan)` in the source). -/
def cleanup (r : Repo) (cutoff : Int) : Repo × Nat :=
  let out := cleanupAux cutoff r.order r.messages
  (⟨out.1, out.2.1⟩, out.2.2)

/-- One store operation, for stating invariants over operation sequences. -/
inductive Op where
  | save (m : Message)
  | fetchPending (limit : Nat)
  | markPublished (id : String) (now : Int)
  | markFailed (id : String) (e : String)
  | cleanup (cutoff : Int)
deriving DecidableEq, Repr

/-- State transition of one store operation (FetchPending reads only). -/
def step (r : Repo) : Op → Repo
  | .save m => save r m
  | .fetchPending _ => r
  | .markPublished id now => markPublished r id now
  | .markFailed id e => markFailed r id e
  | .cleanup cutoff => (cleanup r cutoff).1

/-- Run a sequence of store operations. -/
def run (r : Repo) (ops : List Op) : Repo :=
  ops.foldl step r

/-- Relay configuration fields used by Processor.processBatch.  The
source's ProcessorConfig also carries a RetryDelay, which processBatch
never reads. -/
structure RelayConfig where
  batchSize : Nat
  maxRetries : Nat
deriving DecidableEq, Repr

/-- Processor.processBatch over the store: fetch up to batchSize pending
messages, then for each either mark it published (publish succeeded) or
mark it failed — with the "Exceeded max retries" text when its fetched
retry count is already at least maxRetries, else with the publish error.
`publish` models publisher.Producer.Publish: `none` is success, `some e`
an error. -/
def processBatch (cfg : RelayConfig) (publish : Message → Option String)
    (r : Repo) (now : Int) : Repo :=
  let msgs := getPending r cfg.batchSize
  msgs.foldl
    (fun acc msg =>
      match publish msg with
      | some e =>
        if cfg.maxRetries ≤ msg.retryCount then
          markFailed acc msg.id "Exceeded max retries"
        else
          markFailed acc msg.id e
      | none => markPublished acc msg.id now)
    r

end UMWOutbox

namespace UMWCmd

/-- Command status (command.Status constants). -/
inductive CStatus where
  | pending
  | processing
  | completed
  | failed
  | retrying
  | cancelled
deriving DecidableEq, Repr

/-- A JSON-ish payload value (Go `map[string]interface{}` values).
Numbers are collapsed to Int; the claims never depend on numeric or
string format details. -/
inductive PValue where
  | str (s : String)
  | num (n : Int)
  | list (items : List PValue)
  | obj (fields : List (String × PValue))
  | other

/-- Error details attached to a command (command.ErrorDetails). -/
structure ErrorDetails where
  code : String
  message : String
  details : String
  occurredAt : Int
deriving DecidableEq, Repr

/-- The command structure (command.Command); fields not read by the
embedded operations are omitted.  `payload = none` is Go's nil map;
durations are Int nanoseconds. -/
structure Command where
  id : String
  type : String
  priority : Int
  status : CStatus
  payload : Option (List (String × PValue))
  errorDetails : Option ErrorDetails
  updatedAt : Int
  scheduledFor : Option Int
  processedAt : Option Int
  completedAt : Option Int
  retryCount : Int
  maxRetries : Int
  retryBackoff : Int
  timeoutAfter : Int

/-- Command.IsRetryable: failed and below the retry budget. -/
def isRetryable (c : Command) : Bool :=
  c.status = .failed && c.retryCount < c.maxRetries

/-- Processor.calculateNextRetry: now plus retryBackoff times the current
retry count. -/
def calculateNextRetry (c : Command) (now : Int) : Int :=
  now + c.retryBackoff * c.retryCount

/-- The format checks the Validator delegates to the third-party
go-playground validator (`validate.Var(value, tag)`), one Boolean oracle
per tag string used in the source.  They are collaborator behaviour, not
code of this repository. -/
structure LibChecks where
  requiredEmail : String → Bool
  email : String → Bool
  requiredAlphanum330 : String → Bool
  alphanum330 : String → Bool
  requiredMin8 : String → Bool
  requiredMinMax255 : String → Bool
  requiredGtZero : Int → Bool
  requiredIso4217 : String → Bool

/-- Validator.validateUserCreate: presence of email/username/password,
string typing, then the tag checks. -/
def validateUserCreate (lib : LibChecks) (payload : List (String × PValue)) :
    Option String :=
  if (UMW.alookup payload "email").isNone then some "missing required field: email"
  else if (UMW.alookup payload "username").isNone then some "missing required field: username"
  else if (UMW.alookup payload "password").isNone then some "missing required field: password"
  else
    match UMW.alookup payload "email" with
    | some (.str email) =>
      if ¬ lib.requiredEmail email then some "invalid email"
      else
        match UMW.alookup payload "username" with
        | some (.str username) =>
          if ¬ lib.requiredAlphanum330 username then some "invalid username"
          else
            match UMW.alookup payload "password" with
            | some (.str password) =>
              if ¬ lib.requiredMin8 password then some "invalid password"
              else none
            | _ => some "password must be a string"
        | _ => some "username must be a string"
    | _ => some "email must be a string"

/-- Validator.validateUserUpdate: id must be present; email/username are
checked only when present AND of string type (a non-string value passes,
as the Go type assertion with `, ok` does). -/
def validateUserUpdate (lib : LibChecks) (payload : List (String × PValue)) :
    Option String :=
  if (UMW.alookup payload "id").isNone then some "user ID is required for update"
  else
    match UMW.alookup payload "email" with
    | some (.str email) =>
      if ¬ lib.email email then some "invalid email"
      else
        match UMW.alookup payload "username" with
        | some (.str username) =>
          if ¬ lib.alphanum330 username then some "invalid username" else none
        | _ => none
    | _ =>
      match UMW.alookup payload "username" with
      | some (.str username) =>
        if ¬ lib.alphanum330 username then some "invalid username" else none
      | _ => none

/-- Validator.validateEmailSend. -/
def validateEmailSend (lib : LibChecks) (payload : List (String × PValue)) :
    Option String :=
  if (UMW.alookup payload "to").isNone then some "missing required field: to"
  else if (UMW.alookup payload "subject").isNone then some "missing required field: subject"
  else if (UMW.alookup payload "body").isNone then some "missing required field: body"
  else
    match UMW.alookup payload "to" with
    | some (.str toAddr) =>
      if ¬ lib.requiredEmail toAddr then some "invalid recipient email"
      else
        match UMW.alookup payload "subject" with
        | some (.str subject) =>
          if ¬ lib.requiredMinMax255 subject then some "invalid subject" else none
        | _ => some "subject must be a string"
    | _ => some "field to must be a string"

/-- Validator.validatePaymentProcess (Go reads `amount` as float64; the
number is modelled as Int). -/
def validatePaymentProcess (lib : LibChecks) (payload : List (String × PValue)) :
    Option String :=
  if (UMW.alookup payload "amount").isNone then some "missing required field: amount"
  else if (UMW.alookup payload "currency").isNone then some "missing required field: currency"
  else if (UMW.alookup payload "paymentMethod").isNone then some "missing required field: paymentMethod"
  else
    match UMW.alookup payload "amount" with
    | some (.num amount) =>
      if ¬ lib.requiredGtZero amount then some "invalid amount"
      else
        match UMW.alookup payload "currency" with
        | some (.str currency) =>
          if ¬ lib.requiredIso4217 currency then some "invalid currency code" else none
        | _ => some "currency must be a string"
    | _ => some "amount must be a number"

/-- Validator.validateOrderItem: productId and quantity present, quantity
a positive number. -/
def validateOrderItem (lib : LibChecks) (item : List (String × PValue)) :
    Option String :=
  if (UMW.alookup item "productId").isNone then some "missing required field: productId"
  else if (UMW.alookup item "quantity").isNone then some "missing required field: quantity"
  else
    match UMW.alookup item "quantity" with
    | some (.num quantity) =>
      if ¬ lib.requiredGtZero quantity then some "invalid quantity" else none
    | _ => some "quantity must be a number"

/-- The per-item loop of Validator.validateOrderCreate. -/
def validateOrderItems (lib : LibChecks) : List PValue → Option String
  | [] => none
  | .obj fields :: rest =>
    match validateOrderItem lib fields with
    | some e => some ("invalid item: " ++ e)
    | none => validateOrderItems lib rest
  | _ :: _ => some "item is not a valid object"

/-- Validator.validateOrderCreate: userId and a non-empty items array of
valid order items. -/
def validateOrderCreate (lib : LibChecks) (payload : List (String × PValue)) :
    Option String :=
  if (UMW.alookup payload "userId").isNone then some "missing required field: userId"
  else if (UMW.alookup payload "items").isNone then some "missing required field: items"
  else
    match UMW.alookup payload "items" with
    | some (.list items) =>
      if items.isEmpty then some "order must contain at least one item"
      else validateOrderItems lib items
    | _ => some "items must be an array"

/-- Validator.validateGenericCommand: priority within [PriorityLow,
PriorityCritical] and non-negative maxRetries, retryBackoff and
timeoutAfter. -/
def validateGenericCommand (cmd : Command) : Option String :=
  if cmd.priority < 1 ∨ 4 < cmd.priority then some "invalid priority value"
  else if cmd.maxRetries < 0 then some "max retries cannot be negative"
  else if cmd.retryBackoff < 0 then some "retry backoff cannot be negative"
  else if cmd.timeoutAfter < 0 then some "timeout cannot be negative"
  else none

/-- Validator.ValidateCommand: basic presence checks, then dispatch on the
command type string, defaulting to the generic validation. -/
def validateCommand (lib : LibChecks) (cmd : Command) : Option String :=
  if cmd.id = "" then some "command ID is required"
  else if cmd.type = "" then some "command type is required"
  else
    match cmd.payload with
    | none => some "command payload is required"
    | some payload =>
      if cmd.type = "user.create" then validateUserCreate lib payload
      else if cmd.type = "user.update" then validateUserUpdate lib payload
      else if cmd.type = "email.send" then validateEmailSend lib payload
      else if cmd.type = "payment.process" then validatePaymentProcess lib payload
      else if cmd.type = "order.create" then validateOrderCreate lib payload
      else validateGenericCommand cmd

/-- A registered command handler (the Handler interface): whether it can
handle a type, and the outcome of HandleCommand (`none` success,
`some e` error). -/
structure Handler where
  canHandle : String → Bool
  handle : Command → Option String

/-- The processor state: the type-to-handlers map and the validator
(a CommandValidator value; NewProcessor installs the Validator above). -/
structure Processor where
  handlers : List (String × List Handler)
  validator : Command → Option String

/-- NewProcessor: an empty handler map and the standard validator. -/
def newProcessor (lib : LibChecks) : Processor :=
  ⟨[], validateCommand lib⟩

/-- Processor.RegisterHandler: for every command type ALREADY a key of the
handler map, append the handler when it can handle that type.  No code
path inserts a new key. -/
def registerHandler (p : Processor) (h : Handler) : Processor :=
  { p with
    handlers := p.handlers.map (fun q => if h.canHandle q.1 then (q.1, q.2 ++ [h]) else q) }

/-- The error outcome of Processor.Process. -/
inductive ProcErr where
  | validationFailed (e : String)
  | noHandler (ty : String)
  | handlerErr (e : String)
deriving DecidableEq, Repr

/-- The handler loop of Processor.Process: run handlers in order, stopping
at the first error.  On an error the command gets HANDLER_ERROR details;
then IsRetryable decides between the retrying transition (increment the
retry count, schedule the next attempt) and failed.  With no error left
the command completes. -/
def runHandlers (now : Int) : List Handler → Command → Command × Option ProcErr
  | [], cmd =>
    ({ cmd with status := .completed, completedAt := some now, updatedAt := now }, none)
  | h :: rest, cmd =>
    match h.handle cmd with
    | none => runHandlers now rest cmd
    | some e =>
      let cmd1 := { cmd with errorDetails := some ⟨"HANDLER_ERROR", e, "", now⟩ }
      if isRetryable cmd1 then
        let cmd2 := { cmd1 with status := .retrying, retryCount := cmd1.retryCount + 1 }
        ({ cmd2 with scheduledFor := some (calculateNextRetry cmd2 now) },
          some (.handlerErr e))
      else
        ({ cmd1 with status := .failed }, some (.handlerErr e))

/-- Processor.Process: validate (VALIDATION_ERROR and failed on a
validation error); acquire a worker slot (immediate in this sequential
model); set status processing with the processing timestamps; fail with
NO_HANDLER when no handlers are registered for the type; otherwise run
the handlers. -/
def process (p : Processor) (cmd : Command) (now : Int) : Command × Option ProcErr :=
  match p.validator cmd with
  | some e =>
    ({ cmd with errorDetails := some ⟨"VALIDATION_ERROR", e, "", now⟩, status := .failed },
      some (.validationFailed e))
  | none =>
    let cmd1 := { cmd with status := .processing, processedAt := some now, updatedAt := now }
    match UMW.alookup p.handlers cmd1.type with
    | none =>
      ({ cmd1 with
          errorDetails := some ⟨"NO_HANDLER", "no handlers registered for command type: " ++ cmd1.type, "", now⟩,
          status := .failed },
        some (.noHandler cmd1.type))
    | some [] =>
      ({ cmd1 with
          errorDetails := some ⟨"NO_HANDLER", "no handlers registered for command type: " ++ cmd1.type, "", now⟩,
          status := .failed },
        some (.noHandler cmd1.type))
    | some hs => runHandlers now hs cmd1

end UMWCmd

namespace UMWIngress

/-- A row of the commands table, with the columns checkIdempotency
selects. -/
structure CmdRow where
  id : String
  type : String
  entityId : String
  status : String
  createdAt : Int
deriving DecidableEq, Repr

/-- A row of the outbox_messages table, with the columns storeInOutbox
inserts. -/
structure OutboxRow where
  id : String
  aggregateType : String
  aggregateId : String
  eventType : String
  payload : String
  topic : String
  status : String
  createdAt : Int
  retryCount : Nat
deriving DecidableEq, Repr

/-- The relational state the ingress path touches: the commands table
(keyed by id), the idempotency_keys table (key, command_id; key is the
primary key and, per the schema, command_id is NOT NULL and REFERENCES
commands(id)) and the outbox_messages table.  No code of the ingress
path inserts into the commands table. -/
structure DB where
  commands : List (String × CmdRow)
  idempotencyKeys : List (String × String)
  outbox : List OutboxRow
deriving DecidableEq, Repr

/-- CommandService.checkIdempotency: the SQL join of idempotency_keys and
commands on command_id = id, filtered by the key.  A row comes back only
when BOTH the key mapping and the joined commands row exist; otherwise
sql.ErrNoRows, surfaced as the "not found" error (`none` here). -/
def checkIdempotency (db : DB) (key : String) : Option CmdRow :=
  match UMW.alookup db.idempotencyKeys key with
  | none => none
  | some cid => UMW.alookup db.commands cid

/-- The submitted command's caller-controlled fields. -/
structure SubmitIn where
  type : String
  entityId : String
  payload : String
  idempotencyKey : String
deriving DecidableEq, Repr

/-- CommandResult: command id, status and the status-lookup location. -/
structure SubmitOut where
  commandId : String
  status : String
  location : String
deriving DecidableEq, Repr

/-- Outcome of a SubmitCommand call: the CommandResult, or the error the
call surfaces when a statement inside the transaction fails. -/
inductive SubmitOutcome where
  | ok (res : SubmitOut)
  | error (msg : String)
deriving DecidableEq, Repr

/-- The transaction body of SubmitCommand once the idempotency lookup did
not return a prior mapping: insert the outbox row for the fresh command
id (storeInOutbox), then, when an idempotency key was supplied, run
storeIdempotencyKey's INSERT with ON CONFLICT (key) DO NOTHING.  The
schema makes idempotency_keys.command_id NOT NULL REFERENCES
commands(id): when the key already exists the conflict clause makes the
statement a no-op (nothing is inserted, so no FK check fires), but when
the key is new the row is actually inserted and the foreign key requires
a commands row with the fresh id — absent that row the INSERT errors,
SubmitCommand returns "failed to store idempotency key" and the deferred
tx.Rollback discards the whole transaction, the outbox insert included.
On success the transaction commits and the call answers "accepted" with
the fresh id.  The Redis status-cache write is log-and-continue and owns
no state here. -/
def submitFresh (db : DB) (cmd : SubmitIn) (freshId : String) (now : Int) :
    DB × SubmitOutcome :=
  let row : OutboxRow :=
    ⟨freshId, "command", cmd.entityId, cmd.type, cmd.payload, "entity.commands",
      "pending", now, 0⟩
  let db1 := { db with outbox := db.outbox ++ [row] }
  if cmd.idempotencyKey = "" then
    (db1, .ok ⟨freshId, "accepted", "/api/v1/commands/" ++ freshId⟩)
  else if (UMW.alookup db1.idempotencyKeys cmd.idempotencyKey).isSome then
    (db1, .ok ⟨freshId, "accepted", "/api/v1/commands/" ++ freshId⟩)
  else if (UMW.alookup db1.commands freshId).isSome then
    ({ db1 with idempotencyKeys := db1.idempotencyKeys ++ [(cmd.idempotencyKey, freshId)] },
      .ok ⟨freshId, "accepted", "/api/v1/commands/" ++ freshId⟩)
  else
    (db, .error "failed to store idempotency key")

/-- CommandService.SubmitCommand: when an idempotency key is present and
checkIdempotency returns a prior command, answer with that command's id
and status and do nothing else; otherwise run the fresh-submission
transaction with a newly generated uuid (`freshId`). -/
def submitCommand (db : DB) (cmd : SubmitIn) (freshId : String) (now : Int) :
    DB × SubmitOutcome :=
  if cmd.idempotencyKey ≠ "" then
    match checkIdempotency db cmd.idempotencyKey with
    | some existing =>
      (db, .ok ⟨existing.id, existing.status, "/api/v1/commands/" ++ existing.id⟩)
    | none => submitFresh db cmd freshId now
  else submitFresh db cmd freshId now

end UMWIngress

namespace UMWHub

open UMW

/-- A hub client session as the broadcast path sees it: the bounded
outbound buffer (`send chan []byte` with its capacity, 256 at
construction) plus the user id used in logs.  The buffer is the list of
queued messages. -/
structure HClient where
  userId : String
  send : List Bytes
  sendCap : Nat
deriving DecidableEq, Repr

/-- Hub state for fan-out: registered clients keyed by client identity
(standing in for the Go pointer), and the room map from room name to the
member clients' keys. -/
structure HubState where
  clients : List (String × HClient)
  rooms : List (String × List String)
deriving DecidableEq, Repr

/-- Go map update of a client entry. -/
def putClient (cs : List (String × HClient)) (cid : String) (c : HClient) :
    List (String × HClient) :=
  cs.map (fun p => if p.1 = cid then (p.1, c) else p)

/-- The member loop of EnhancedHub.broadcastMessage: for each member in
the room, perform the non-blocking channel send (`select` with a
`default` branch): enqueue the message when the bounded buffer has room
and count the delivery, else leave the buffer alone and count the drop
(the source logs each drop and carries on).  The client map and the two
counters are threaded through the loop. -/
def broadcastLoop (msg : Bytes) :
    List String → List (String × HClient) → Nat → Nat →
    List (String × HClient) × Nat × Nat
  | [], cs, succ, drop => (cs, succ, drop)
  | cid :: rest, cs, succ, drop =>
    match UMW.alookup cs cid with
    | none => broadcastLoop msg rest cs succ drop
    | some c =>
      if c.send.length < c.sendCap then
        broadcastLoop msg rest (putClient cs cid { c with send := c.send ++ [msg] })
          (succ + 1) drop
      else
        broadcastLoop msg rest cs succ (drop + 1)

/-- EnhancedHub.broadcastMessage: look up the room under the read lock; if
it has no local members, do nothing; else attempt a non-blocking send to
every member session, counting deliveries and drops (each drop is logged
and the loop continues; the session is never unregistered or its buffer
closed here).  Returns the new hub state, the delivered count and the
dropped count. -/
def broadcastMessage (h : HubState) (room : String) (msg : Bytes) :
    HubState × Nat × Nat :=
  match UMW.alookup h.rooms room with
  | none => (h, 0, 0)
  | some members =>
    let out := broadcastLoop msg members h.clients 0 0
    ({ h with clients := out.1 }, out.2.1, out.2.2)

end UMWHub

namespace UMWCmd

/-- A concrete instantiation of the third-party format checks, for
evaluating the embedding at concrete inputs (every tag check passes). -/
def libAll : LibChecks :=
  ⟨fun _ => true, fun _ => true, fun _ => true, fun _ => true,
    fun _ => true, fun _ => true, fun _ => true, fun _ => true⟩

/-- A well-formed command of a generic type with the NewCommand defaults
(priority normal, three retries, 5s backoff, 30s timeout). -/
def demoCommand : Command :=
  { id := "c-1", type := "demo.task", priority := 2, status := .pending,
    payload := some [("k", .str "v")], errorDetails := none, updatedAt := 0,
    scheduledFor := none, processedAt := none, completedAt := none,
    retryCount := 0, maxRetries := 3, retryBackoff := 5 * UMW.nsPerSecond,
    timeoutAfter := 30 * UMW.nsPerSecond }

/-- A handler that accepts every type and always fails. -/
def failingHandler : Handler := ⟨fun _ => true, fun _ => some "boom"⟩

/-- A processor whose handler map already contains a failing handler for
demoCommand's type (the registration path cannot produce this state; the
value exhibits what Process does when a handler fails). -/
def demoProcessor : Processor :=
  { newProcessor libAll with handlers := [("demo.task", [failingHandler])] }

end UMWCmd

namespace UMWOutbox

/-- A pending outbox message used in concrete evaluations. -/
def cexMsg : Message :=
  ⟨"a", "command", "e-1", "user.create", "p", "entity.commands", .pending, 0,
    none, 0, ""⟩

end UMWOutbox


namespace UMW

/-- Removing a different key leaves a lookup unchanged. -/
theorem alookup_removeKey_ne {β : Type} (l : List (String × β)) (k k0 : String)
    (h : k ≠ k0) : alookup (removeKey l k0) k = alookup l k := by
  induction l with
  | nil => rfl
  | cons a t ih =>
    obtain ⟨a1, a2⟩ := a
    by_cases ha : a1 = k0
    · have : (decide (a1 ≠ k0)) = false := by simp [ha]
      have hk : ¬ k = a1 := fun hh => h (hh.trans ha)
      simp only [removeKey, List.filter] at ih ⊢
      rw [this]
      simp only [alookup, if_neg hk]
      exact ih
    · have : (decide (a1 ≠ k0)) = true := by simp [ha]
      simp only [removeKey, List.filter] at ih ⊢
      rw [this]
      simp only [alookup]
      by_cases hk : k = a1
      · simp [hk]
      · simp only [if_neg hk]
        exact ih

/-- Removing a key makes its lookup none. -/
theorem alookup_removeKey_self {β : Type} (l : List (String × β)) (k : String) :
    alookup (removeKey l k) k = none := by
  induction l with
  | nil => rfl
  | cons a t ih =>
    obtain ⟨a1, a2⟩ := a
    by_cases ha : a1 = k
    · have : (decide (a1 ≠ k)) = false := by simp [ha]
      simp only [removeKey, List.filter] at ih ⊢
      rw [this]
      exact ih
    · have : (decide (a1 ≠ k)) = true := by simp [ha]
      have hk : ¬ k = a1 := fun hh => ha hh.symm
      simp only [removeKey, List.filter] at ih ⊢
      rw [this]
      simp only [alookup, if_neg hk]
      exact ih

/-- Lookup through the in-place update of one map entry. -/
theorem alookup_map_ite {β : Type} (l : List (String × β)) (k0 k : String)
    (f : β → β) :
    alookup (l.map (fun p => if p.1 = k0 then (p.1, f p.2) else p)) k =
      if k = k0 then (alookup l k).map f else alookup l k := by
  induction l with
  | nil => simp [alookup]
  | cons a t ih =>
    obtain ⟨a1, a2⟩ := a
    rw [List.map_cons]
    by_cases ha : a1 = k0
    · subst ha
      have hhead : (if (a1, a2).1 = a1 then ((a1, a2).1, f (a1, a2).2) else (a1, a2)) =
        (a1, f a2) := by simp
      rw [hhead]
      by_cases hk : k = a1
      · subst hk
        simp [alookup]
      · simp [alookup, hk, ih]
    · have hhead : (if (a1, a2).1 = k0 then ((a1, a2).1, f (a1, a2).2) else (a1, a2)) =
        (a1, a2) := by simp [ha]
      rw [hhead]
      by_cases hk : k = a1
      · subst hk
        simp [alookup, ha]
      · simp [alookup, hk, ih]

/-- A string never equals itself with ":neg" appended. -/
theorem ne_append_neg (k : String) : k ≠ k ++ ":neg" := by
  intro h
  have h2 := congrArg String.length h
  rw [String.length_append] at h2
  have h3 : (":neg").length = 4 := rfl
  omega

end UMW

/-- C7 counterexample: on a substrate error other than key-absent, Get
returns status "error", not the "miss" status the claim asserts (the
value is nil and the error is surfaced, but the meta status differs). -/
theorem cache_get_error_status_cex :
    UMWCache.cacheGetPure (.fail "connection reset") .nil =
      (none, ⟨"error"⟩, some (.other "connection reset")) ∧
    ("error" : String) ≠ "miss" := by
  exact ⟨rfl, by decide⟩

/-- C7 (amended): for every substrate error other than key-absent, Get
returns a nil value together with that error and meta status "error"
(neither hit nor negative), so the caller may proceed to origin. -/
theorem cache_get_substrate_error (e : String) (negReply : UMWCache.RedisReply) :
    UMWCache.cacheGetPure (.fail e) negReply =
      (none, ⟨"error"⟩, some (.other e)) := rfl

/-- C4 counterexample: with base_ttl = 300s and the random draw 299, a
Set without explicit TTL stores base_ttl + 299s; the difference 299s is
far outside the claimed symmetric ±15% band (45s here). -/
theorem ttl_jitter_claim_cex :
    UMWCache.setExpiry (300 * UMW.nsPerSecond) none (some 299)
        - 300 * UMW.nsPerSecond = 299 * UMW.nsPerSecond ∧
    ¬ (UMWCache.setExpiry (300 * UMW.nsPerSecond) none (some 299)
        - 300 * UMW.nsPerSecond ≤ 15 * (300 * UMW.nsPerSecond) / 100) := by
  exact ⟨rfl, by decide⟩

/-- C4 (amended): a Set without an explicit TTL stores base_ttl plus a
non-negative whole-second jitter of at most 299 seconds (no jitter when
the random draw fails); a Set with an explicit TTL stores the supplied
TTL unchanged, with no jitter at all. -/
theorem set_expiry_amended (b t : Int) (j : Nat) (hj : j ≤ 299) :
    UMWCache.setExpiry b none (some j) = b + (j : Int) * UMW.nsPerSecond ∧
    b ≤ UMWCache.setExpiry b none (some j) ∧
    UMWCache.setExpiry b none (some j) ≤ b + 299 * UMW.nsPerSecond ∧
    UMWCache.setExpiry b (some t) (some j) = t ∧
    UMWCache.setExpiry b none none = b ∧
    UMWCache.setExpiry b (some t) none = t := by
  have e1 : UMWCache.setExpiry b none (some j) = b + (j : Int) * UMW.nsPerSecond := rfl
  refine ⟨e1, ?_, ?_, rfl, rfl, rfl⟩
  · rw [e1]
    have h0 : (0 : Int) ≤ (j : Int) * UMW.nsPerSecond := by
      have hj0 : (0 : Int) ≤ (j : Int) := Int.ofNat_nonneg j
      have hns : (0 : Int) ≤ UMW.nsPerSecond := by norm_num [UMW.nsPerSecond]
      exact mul_nonneg hj0 hns
    linarith
  · rw [e1]
    have hji : (j : Int) ≤ 299 := by exact_mod_cast hj
    have hns : (0 : Int) ≤ UMW.nsPerSecond := by norm_num [UMW.nsPerSecond]
    have := mul_le_mul_of_nonneg_right hji hns
    linarith

/-- Witness for the amended C4 statement at b = 2, t = 5, j = 7. -/
theorem set_expiry_amended_witness :
    UMWCache.setExpiry 2 none (some 7) = 2 + ((7 : Nat) : Int) * UMW.nsPerSecond ∧
    (2 : Int) ≤ UMWCache.setExpiry 2 none (some 7) ∧
    UMWCache.setExpiry 2 none (some 7) ≤ 2 + 299 * UMW.nsPerSecond ∧
    UMWCache.setExpiry 2 (some 5) (some 7) = 5 ∧
    UMWCache.setExpiry 2 none none = 2 ∧
    UMWCache.setExpiry 2 (some 5) none = 5 :=
  set_expiry_amended 2 5 7 (by decide)

/-- C1: on a fresh store (schema applied, commands table empty since the
ingress path never writes it), EVERY SubmitCommand call carrying a
non-empty idempotency key fails: checkIdempotency finds no prior mapping,
and then storeIdempotencyKey's INSERT violates the NOT NULL foreign key
idempotency_keys.command_id REFERENCES commands(id), so the transaction
rolls back and the call surfaces "failed to store idempotency key".  At
the claim's input — two calls with the same key "k1" — neither call
returns a command id and no outbox row or key mapping is ever committed,
contradicting the claimed accepted-then-replayed idempotent behaviour. -/
theorem submit_keyed_submission_always_errors :
    let db0 : UMWIngress.DB := ⟨[], [], []⟩
    let c : UMWIngress.SubmitIn := ⟨"user.create", "e-1", "p", "k1"⟩
    let out1 : UMWIngress.DB × UMWIngress.SubmitOutcome :=
      UMWIngress.submitCommand db0 c "id1" 10
    let out2 : UMWIngress.DB × UMWIngress.SubmitOutcome :=
      UMWIngress.submitCommand out1.1 c "id2" 20
    out1.2 = .error "failed to store idempotency key" ∧
    out2.2 = .error "failed to store idempotency key" ∧
    out1.1 = db0 ∧ out2.1 = db0 ∧
    out2.1.outbox = [] ∧ out2.1.idempotencyKeys = [] ∧ out2.1.commands = [] := by
  decide

/-- C2: a pending outbox message whose publish fails once, with retry
count 0 < maxRetries 3, has its retry count incremented by MarkAsFailed —
but its status becomes failed, and a subsequent FetchPending (which
selects only status pending) no longer returns it, so it is never
retried; no back-off timestamp exists anywhere in the store. -/
theorem outbox_failed_never_refetched :
    let r0 : UMWOutbox.Repo := UMWOutbox.save UMWOutbox.emptyRepo UMWOutbox.cexMsg
    let cfg : UMWOutbox.RelayConfig := ⟨100, 3⟩
    let r1 : UMWOutbox.Repo := UMWOutbox.processBatch cfg (fun _ => some "kafka unavailable") r0 50
    (UMWOutbox.getPending r0 100).length = 1 ∧
    UMWOutbox.cexMsg.retryCount < cfg.maxRetries ∧
    (UMW.alookup r1.messages "a").map UMWOutbox.Message.status =
      some UMWOutbox.OStatus.failed ∧
    (UMW.alookup r1.messages "a").map UMWOutbox.Message.retryCount = some 1 ∧
    UMWOutbox.getPending r1 100 = [] := by
  decide

namespace UMWCmd

/-- Inside the handler loop the command's status is processing, so
IsRetryable (which requires status failed) is false and the retrying
branch is unreachable. -/
theorem runHandlers_not_retrying (now : Int) (hs : List Handler) :
    ∀ cmd : Command, cmd.status = .processing →
      (runHandlers now hs cmd).1.status ≠ .retrying := by
  induction hs with
  | nil =>
    intro cmd _
    simp [runHandlers]
  | cons hd tl ih =>
    intro cmd h
    unfold runHandlers
    cases hh : hd.handle cmd with
    | none => exact ih cmd h
    | some e =>
      have hr : isRetryable { cmd with errorDetails := some ⟨"HANDLER_ERROR", e, "", now⟩ }
          = false := by
        simp [isRetryable, h]
      simp [hr]

/-- Process never produces a retrying command: every branch ends in
failed, completed or the handler loop, and the loop runs with status
processing. -/
theorem process_not_retrying (p : Processor) (cmd : Command) (now : Int) :
    (process p cmd now).1.status ≠ .retrying := by
  unfold process
  cases hv : p.validator cmd with
  | some e => simp
  | none =>
    cases hl : UMW.alookup p.handlers cmd.type with
    | none => simp [hl]
    | some hs =>
      cases hs with
      | nil => simp [hl]
      | cons h0 t0 =>
        simp only [hl]
        exact runHandlers_not_retrying now (h0 :: t0) _ rfl

/-- RegisterHandler on a processor with an empty handler map changes
nothing. -/
theorem registerHandler_empty (p : Processor) (h : Handler)
    (hp : p.handlers = []) : registerHandler p h = p := by
  cases p with
  | mk hs v =>
    have he : hs = [] := hp
    subst he
    rfl

/-- Any sequence of RegisterHandler calls leaves an empty handler map
empty. -/
theorem foldl_registerHandler_empty (hs : List Handler) :
    ∀ p : Processor, p.handlers = [] → hs.foldl registerHandler p = p := by
  induction hs with
  | nil => intro p _; rfl
  | cons a t ih =>
    intro p hp
    rw [List.foldl_cons, registerHandler_empty p a hp]
    exact ih p hp

end UMWCmd

/-- C5: a valid command of a generic type with retry budget remaining
(retryCount 0 < maxRetries 3) whose handler fails is set to FAILED with
no scheduled_for and an unchanged retry count — not to retrying — and,
universally, no Process outcome ever has status retrying: IsRetryable
tests for status failed at a point where the status is still processing,
so the retrying branch of Process is dead code. -/
theorem command_retry_transition_bug :
    (UMWCmd.process UMWCmd.demoProcessor UMWCmd.demoCommand 100).1.status =
      UMWCmd.CStatus.failed ∧
    (UMWCmd.process UMWCmd.demoProcessor UMWCmd.demoCommand 100).1.scheduledFor = none ∧
    (UMWCmd.process UMWCmd.demoProcessor UMWCmd.demoCommand 100).1.retryCount = 0 ∧
    UMWCmd.demoCommand.retryCount < UMWCmd.demoCommand.maxRetries ∧
    (UMWCmd.process UMWCmd.demoProcessor UMWCmd.demoCommand 100).2 =
      some (.handlerErr "boom") ∧
    ((UMWCmd.process UMWCmd.demoProcessor UMWCmd.demoCommand 100).1.errorDetails.map
        UMWCmd.ErrorDetails.code) = some "HANDLER_ERROR" ∧
    ∀ (p : UMWCmd.Processor) (cmd : UMWCmd.Command) (now : Int),
      (UMWCmd.process p cmd now).1.status ≠ UMWCmd.CStatus.retrying := by
  refine ⟨rfl, rfl, rfl, by decide, rfl, rfl, UMWCmd.process_not_retrying⟩

/-- C10: on a freshly constructed Processor, any sequence of
RegisterHandler calls registers nothing (the handler map stays empty,
since registration only appends under already-present keys), and every
Process call for a command that passes validation fails with the
NO_HANDLER error. -/
theorem register_noop_then_no_handler (lib : UMWCmd.LibChecks)
    (hs : List UMWCmd.Handler) (cmd : UMWCmd.Command) (now : Int)
    (hv : UMWCmd.validateCommand lib cmd = none) :
    (hs.foldl UMWCmd.registerHandler (UMWCmd.newProcessor lib)).handlers = [] ∧
    (UMWCmd.process (hs.foldl UMWCmd.registerHandler (UMWCmd.newProcessor lib)) cmd now).2
      = some (.noHandler cmd.type) ∧
    (UMWCmd.process (hs.foldl UMWCmd.registerHandler (UMWCmd.newProcessor lib)) cmd now).1.status
      = UMWCmd.CStatus.failed ∧
    ((UMWCmd.process (hs.foldl UMWCmd.registerHandler (UMWCmd.newProcessor lib)) cmd now).1.errorDetails.map
        UMWCmd.ErrorDetails.code) = some "NO_HANDLER" := by
  have hfold : hs.foldl UMWCmd.registerHandler (UMWCmd.newProcessor lib) =
      UMWCmd.newProcessor lib :=
    UMWCmd.foldl_registerHandler_empty hs _ rfl
  rw [hfold]
  have hval : (UMWCmd.newProcessor lib).validator cmd = none := hv
  refine ⟨rfl, ?_, ?_, ?_⟩
  all_goals
    unfold UMWCmd.process
    rw [hval]
    simp [UMWCmd.newProcessor, UMW.alookup]

/-- Witness for C10 at the all-pass format checks, an empty registration
sequence and a valid generic command. -/
theorem register_noop_then_no_handler_witness :
    UMWCmd.validateCommand UMWCmd.libAll UMWCmd.demoCommand = none ∧
    ((([] : List UMWCmd.Handler).foldl UMWCmd.registerHandler
        (UMWCmd.newProcessor UMWCmd.libAll)).handlers = [] ∧
      (UMWCmd.process (([] : List UMWCmd.Handler).foldl UMWCmd.registerHandler
          (UMWCmd.newProcessor UMWCmd.libAll)) UMWCmd.demoCommand 0).2
        = some (.noHandler UMWCmd.demoCommand.type) ∧
      (UMWCmd.process (([] : List UMWCmd.Handler).foldl UMWCmd.registerHandler
          (UMWCmd.newProcessor UMWCmd.libAll)) UMWCmd.demoCommand 0).1.status
        = UMWCmd.CStatus.failed ∧
      ((UMWCmd.process (([] : List UMWCmd.Handler).foldl UMWCmd.registerHandler
          (UMWCmd.newProcessor UMWCmd.libAll)) UMWCmd.demoCommand 0).1.errorDetails.map
          UMWCmd.ErrorDetails.code) = some "NO_HANDLER") :=
  ⟨rfl, register_noop_then_no_handler UMWCmd.libAll [] UMWCmd.demoCommand 0 rfl⟩

namespace UMWCache

/-- When the base key and the negative key are both absent, Get misses. -/
theorem cacheGet_miss (s : KV) (now : Int) (key : String)
    (hkey : kvGet s now key = .nil) (hneg : kvGet s now (key ++ ":neg") = .nil) :
    cacheGet s now key = (none, ⟨"miss"⟩, some .errCacheMiss) := by
  unfold cacheGet
  rw [hkey, hneg]
  rfl

/-- An absent-or-expired key stays absent-or-expired at any later time
(no mutation in between). -/
theorem kvGet_nil_mono (s : KV) (now t : Int) (k : String)
    (h : kvGet s now k = .nil) (hle : now ≤ t) : kvGet s t k = .nil := by
  unfold kvGet at h ⊢
  cases hl : UMW.alookup s k with
  | none => rfl
  | some e =>
    rw [hl] at h
    have h2 : (if now < e.expiresAt then RedisReply.ok e.value else RedisReply.nil) =
        RedisReply.nil := h
    show (if t < e.expiresAt then RedisReply.ok e.value else RedisReply.nil) = RedisReply.nil
    by_cases hx : now < e.expiresAt
    · rw [if_pos hx] at h2
      exact absurd h2 (by simp)
    · rw [if_neg (by omega)]

/-- Substrate reads only depend on the lookup of the key. -/
theorem kvGet_congr (s1 s2 : KV) (t : Int) (k : String)
    (h : UMW.alookup s1 k = UMW.alookup s2 k) : kvGet s1 t k = kvGet s2 t k := by
  unfold kvGet
  rw [h]

end UMWCache

/-- C3: for a key absent from the cache (no entry and no negative entry),
N concurrent GetOrFetch callers that coalesce through singleflight cause
exactly one loader invocation, and every caller receives the same value
and the same status "miss" with no error; the winning execution
double-checks the cache before fetching (the double-check is the first
step of the modelled closure). -/
theorem single_flight_coalescing (cfg : UMWCache.CacheConfig) (s : UMWCache.KV)
    (now : Int) (key : String) (data : UMW.Bytes) (n : Nat)
    (hkey : UMWCache.kvGet s now key = .nil)
    (hneg : UMWCache.kvGet s now (key ++ ":neg") = .nil) :
    (UMWCache.getOrFetchConcurrent cfg s now key (.ok data) n).2.2 = 1 ∧
    (UMWCache.getOrFetchConcurrent cfg s now key (.ok data) n).2.1 =
      List.replicate n (some data, ⟨"miss"⟩, none) ∧
    ∀ r ∈ (UMWCache.getOrFetchConcurrent cfg s now key (.ok data) n).2.1,
      r = (some data, ⟨"miss"⟩, none) := by
  have hget := UMWCache.cacheGet_miss s now key hkey hneg
  unfold UMWCache.getOrFetchConcurrent UMWCache.gofDoBody
  rw [hget]
  refine ⟨rfl, rfl, ?_⟩
  intro r hr
  exact List.eq_of_mem_replicate hr

/-- Witness for C3 on the empty substrate with three callers. -/
theorem single_flight_coalescing_witness :
    UMWCache.kvGet [] 0 "k" = .nil ∧
    UMWCache.kvGet [] 0 ("k" ++ ":neg") = .nil ∧
    ((UMWCache.getOrFetchConcurrent ⟨300, 30⟩ [] 0 "k" (.ok [1, 2]) 3).2.2 = 1 ∧
      (UMWCache.getOrFetchConcurrent ⟨300, 30⟩ [] 0 "k" (.ok [1, 2]) 3).2.1 =
        List.replicate 3 (some [1, 2], ⟨"miss"⟩, none) ∧
      ∀ r ∈ (UMWCache.getOrFetchConcurrent ⟨300, 30⟩ [] 0 "k" (.ok [1, 2]) 3).2.1,
        r = (some [1, 2], ⟨"miss"⟩, none)) :=
  ⟨rfl, rfl, single_flight_coalescing ⟨300, 30⟩ [] 0 "k" [1, 2] 3 rfl rfl⟩

/-- C6 counterexample: when the loader reports not-found, GetOrFetch does
write the negative entry, but the caller receives meta status "miss"
(with ErrNotFound), not the "neg" status the claim asserts. -/
theorem negative_first_caller_status_cex :
    (UMWCache.getOrFetch ⟨300, 30⟩ [] 0 "k" .notFound).meta.status = "miss" ∧
    ("miss" : String) ≠ "neg" ∧
    UMW.alookup (UMWCache.getOrFetch ⟨300, 30⟩ [] 0 "k" .notFound).state "k:neg" =
      some ⟨UMWCache.negSentinel, 30⟩ := by
  refine ⟨rfl, by decide, ?_⟩
  decide

/-- C6 (amended): when the loader reports not-found for an absent key,
GetOrFetch writes the negative entry and returns the not-found sentinel
error with status "miss" to that first caller; every subsequent Get on
the key within negative_ttl then answers status "neg" with the sentinel
error, and a subsequent GetOrFetch answers the same without invoking the
loader. -/
theorem negative_caching_amended (cfg : UMWCache.CacheConfig) (s : UMWCache.KV)
    (now : Int) (key : String)
    (hkey : UMWCache.kvGet s now key = .nil)
    (hneg : UMWCache.kvGet s now (key ++ ":neg") = .nil) :
    (UMWCache.getOrFetch cfg s now key .notFound).err = some .errNotFound ∧
    (UMWCache.getOrFetch cfg s now key .notFound).meta = ⟨"miss"⟩ ∧
    (UMWCache.getOrFetch cfg s now key .notFound).value = none ∧
    (UMWCache.getOrFetch cfg s now key .notFound).fetcherCalls = 1 ∧
    (UMWCache.getOrFetch cfg s now key .notFound).state =
      UMWCache.setNegative cfg s now key ∧
    ∀ (t : Int) (f : UMWCache.FetchResult), now ≤ t → t < now + cfg.negativeTTL →
      UMWCache.cacheGet (UMWCache.getOrFetch cfg s now key .notFound).state t key =
        (none, ⟨"neg"⟩, some .errNotFound) ∧
      (UMWCache.getOrFetch cfg (UMWCache.getOrFetch cfg s now key .notFound).state t key f).meta
        = ⟨"neg"⟩ ∧
      (UMWCache.getOrFetch cfg (UMWCache.getOrFetch cfg s now key .notFound).state t key f).err
        = some .errNotFound ∧
      (UMWCache.getOrFetch cfg (UMWCache.getOrFetch cfg s now key .notFound).state t key f).fetcherCalls
        = 0 := by
  have hget := UMWCache.cacheGet_miss s now key hkey hneg
  have hres : UMWCache.getOrFetch cfg s now key .notFound =
      ⟨UMWCache.setNegative cfg s now key, none, ⟨"miss"⟩, some .errNotFound, 1⟩ := by
    unfold UMWCache.getOrFetch UMWCache.gofDoBody
    rw [hget]
  rw [hres]
  refine ⟨rfl, rfl, rfl, rfl, rfl, ?_⟩
  intro t f hnt htn
  have hbase : UMWCache.kvGet (UMWCache.setNegative cfg s now key) t key =
      UMWCache.kvGet s t key := by
    refine UMWCache.kvGet_congr _ _ t key ?_
    unfold UMWCache.setNegative UMWCache.kvSet
    have hne : key ≠ key ++ ":neg" := UMW.ne_append_neg key
    rw [show UMW.alookup ((key ++ ":neg", (⟨UMWCache.negSentinel, now + cfg.negativeTTL⟩ : UMWCache.Entry)) :: UMW.removeKey s (key ++ ":neg")) key =
        UMW.alookup (UMW.removeKey s (key ++ ":neg")) key from by
      simp only [UMW.alookup, if_neg hne]]
    exact UMW.alookup_removeKey_ne s key (key ++ ":neg") hne
  have hbaseNil : UMWCache.kvGet (UMWCache.setNegative cfg s now key) t key = .nil := by
    rw [hbase]
    exact UMWCache.kvGet_nil_mono s now t key hkey hnt
  have hnegOk : UMWCache.kvGet (UMWCache.setNegative cfg s now key) t (key ++ ":neg") =
      .ok UMWCache.negSentinel := by
    unfold UMWCache.setNegative UMWCache.kvSet UMWCache.kvGet
    simp [UMW.alookup, htn]
  have hget2 : UMWCache.cacheGet (UMWCache.setNegative cfg s now key) t key =
      (none, ⟨"neg"⟩, some .errNotFound) := by
    unfold UMWCache.cacheGet
    rw [hbaseNil, hnegOk]
    rfl
  refine ⟨hget2, ?_, ?_, ?_⟩
  all_goals
    unfold UMWCache.getOrFetch
    rw [hget2]

/-- Witness for the amended C6 statement on the empty substrate, reading
back at t = 10 inside the 30-unit negative TTL. -/
theorem negative_caching_amended_witness :
    UMWCache.kvGet [] 0 "k" = .nil ∧
    UMWCache.kvGet [] 0 ("k" ++ ":neg") = .nil ∧
    (0 : Int) ≤ 10 ∧ (10 : Int) < 0 + (⟨300, 30⟩ : UMWCache.CacheConfig).negativeTTL ∧
    (UMWCache.getOrFetch ⟨300, 30⟩ [] 0 "k" .notFound).err = some .errNotFound ∧
    UMWCache.cacheGet (UMWCache.getOrFetch ⟨300, 30⟩ [] 0 "k" .notFound).state 10 "k" =
      (none, ⟨"neg"⟩, some .errNotFound) ∧
    (UMWCache.getOrFetch ⟨300, 30⟩
        (UMWCache.getOrFetch ⟨300, 30⟩ [] 0 "k" .notFound).state 10 "k" (.ok [5])).meta
      = ⟨"neg"⟩ ∧
    (UMWCache.getOrFetch ⟨300, 30⟩
        (UMWCache.getOrFetch ⟨300, 30⟩ [] 0 "k" .notFound).state 10 "k" (.ok [5])).fetcherCalls
      = 0 := by
  have h := negative_caching_amended ⟨300, 30⟩ [] 0 "k" rfl rfl
  have h5 := h.2.2.2.2.2 10 (.ok [5]) (by decide) (by decide)
  exact ⟨rfl, rfl, by decide, by decide, h.1, h5.1, h5.2.1, h5.2.2.2⟩

namespace UMWOutbox

/-- Cleanup only removes entries: every lookup afterwards is either gone
or unchanged. -/
theorem cleanupAux_lookup (cutoff : Int) :
    ∀ (order : List String) (msgs : List (String × Message)) (id : String),
    UMW.alookup (cleanupAux cutoff order msgs).1 id = none ∨
    UMW.alookup (cleanupAux cutoff order msgs).1 id = UMW.alookup msgs id := by
  intro order
  induction order with
  | nil => intro msgs id; right; rfl
  | cons hd tl ih =>
    intro msgs id
    unfold cleanupAux
    cases hl : UMW.alookup msgs hd with
    | none => exact ih msgs id
    | some m =>
      cases hc : cleanupHits cutoff m with
      | true =>
        simp only [hc, if_true]
        rcases ih (UMW.removeKey msgs hd) id with h1 | h2
        · left; exact h1
        · by_cases hid : id = hd
          · subst hid
            rw [UMW.alookup_removeKey_self] at h2
            left; exact h2
          · right
            rw [h2, UMW.alookup_removeKey_ne _ _ _ hid]
      | false =>
        simp only [hc, if_false]
        exact ih msgs id

/-- Lookup through mapUpdate touches only the updated id. -/
theorem alookup_mapUpdate (msgs : List (String × Message)) (id2 k : String)
    (f : Message → Message) :
    UMW.alookup (mapUpdate msgs id2 f) k =
      if k = id2 then (UMW.alookup msgs k).map f else UMW.alookup msgs k :=
  UMW.alookup_map_ite msgs id2 k f

/-- One store operation that is not a Save reusing the id preserves
"the row at this id, if present, is not pending". -/
theorem step_preserves_notPending (r : Repo) (op : Op) (id : String)
    (hsave : ∀ m0, op = Op.save m0 → m0.id ≠ id)
    (hnp : ∀ m, UMW.alookup r.messages id = some m → m.status ≠ .pending) :
    ∀ m, UMW.alookup (step r op).messages id = some m → m.status ≠ .pending := by
  cases op with
  | save m0 =>
    have hne : m0.id ≠ id := hsave m0 rfl
    have hne2 : ¬ id = m0.id := fun hh => hne hh.symm
    intro m hm
    have hstep : step r (Op.save m0) = save r m0 := rfl
    rw [hstep] at hm
    unfold save mapPut at hm
    simp only [UMW.alookup, if_neg hne2] at hm
    rw [UMW.alookup_removeKey_ne _ _ _ hne2] at hm
    exact hnp m hm
  | fetchPending limit =>
    exact hnp
  | markPublished id2 t =>
    intro m hm0
    have hm : UMW.alookup (mapUpdate r.messages id2
        (fun mm => { mm with status := OStatus.published, publishedAt := some t })) id
        = some m := hm0
    rw [alookup_mapUpdate] at hm
    by_cases hid : id = id2
    · rw [if_pos hid] at hm
      cases hl : UMW.alookup r.messages id with
      | none => rw [hl] at hm; exact absurd hm (by simp)
      | some mm =>
        rw [hl] at hm
        simp only [Option.map_some'] at hm
        cases hm
        simp
    · rw [if_neg hid] at hm
      exact hnp m hm
  | markFailed id2 e =>
    intro m hm0
    have hm : UMW.alookup (mapUpdate r.messages id2
        (fun mm =>
          { mm with retryCount := mm.retryCount + 1, errorMessage := e, status := OStatus.failed }))
        id = some m := hm0
    rw [alookup_mapUpdate] at hm
    by_cases hid : id = id2
    · rw [if_pos hid] at hm
      cases hl : UMW.alookup r.messages id with
      | none => rw [hl] at hm; exact absurd hm (by simp)
      | some mm =>
        rw [hl] at hm
        simp only [Option.map_some'] at hm
        cases hm
        simp
    · rw [if_neg hid] at hm
      exact hnp m hm
  | cleanup cutoff =>
    intro m hm
    have hstep : step r (Op.cleanup cutoff) = (cleanup r cutoff).1 := rfl
    rw [hstep] at hm
    have hc : (cleanup r cutoff).1.messages = (cleanupAux cutoff r.order r.messages).1 := rfl
    rw [hc] at hm
    rcases cleanupAux_lookup cutoff r.order r.messages id with h1 | h2
    · rw [h1] at hm; exact absurd hm (by simp)
    · rw [h2] at hm; exact hnp m hm

/-- Running a sequence of operations none of which Saves this id
preserves "the row at this id, if present, is not pending". -/
theorem run_preserves_notPending (ops : List Op) :
    ∀ (r : Repo) (id : String),
    (∀ m0, Op.save m0 ∈ ops → m0.id ≠ id) →
    (∀ m, UMW.alookup r.messages id = some m → m.status ≠ .pending) →
    ∀ m, UMW.alookup (run r ops).messages id = some m → m.status ≠ .pending := by
  induction ops with
  | nil => intro r id _ hnp; exact hnp
  | cons op t ih =>
    intro r id hsave hnp
    have h1 : ∀ m0, op = Op.save m0 → m0.id ≠ id := by
      intro m0 hh
      exact hsave m0 (by rw [hh]; exact List.mem_cons_self _ _)
    exact ih (step r op) id
      (fun m0 hm => hsave m0 (List.mem_cons_of_mem _ hm))
      (step_preserves_notPending r op id h1 hnp)

end UMWOutbox

/-- C8 counterexample: Save a message, mark it published, then Save a
message with the same id again — the in-memory Save overwrites the row
back to status pending, so a published row returns to pending. -/
theorem outbox_save_overwrite_cex :
    (UMW.alookup (UMWOutbox.run UMWOutbox.emptyRepo
        [.save UMWOutbox.cexMsg, .markPublished "a" 5]).messages "a").map
      UMWOutbox.Message.status = some UMWOutbox.OStatus.published ∧
    (UMW.alookup (UMWOutbox.run UMWOutbox.emptyRepo
        [.save UMWOutbox.cexMsg, .markPublished "a" 5,
          .save UMWOutbox.cexMsg]).messages "a").map
      UMWOutbox.Message.status = some UMWOutbox.OStatus.pending := by
  decide

/-- C8 (amended): under every sequence of store operations in which Save
is never called with the id of the already-published row (ids are fresh
UUIDs in normal operation), a message that has reached status published
never returns to status pending: afterwards the row at that id is either
still present with a status other than pending (published, or failed via
MarkAsFailed) or removed by cleanup.  A Save reusing the id overwrites
the row back to pending, which is what the counterexample exhibits. -/
theorem outbox_published_never_pending (ops : List UMWOutbox.Op)
    (r : UMWOutbox.Repo) (id : String) (m : UMWOutbox.Message)
    (hsave : ∀ m0, UMWOutbox.Op.save m0 ∈ ops → m0.id ≠ id)
    (hm : UMW.alookup r.messages id = some m)
    (hpub : m.status = .published) :
    ∀ m1, UMW.alookup (UMWOutbox.run r ops).messages id = some m1 →
      m1.status ≠ .pending := by
  refine UMWOutbox.run_preserves_notPending ops r id hsave ?_
  intro m2 hm2
  rw [hm] at hm2
  cases hm2
  rw [hpub]
  simp

/-- Witness for the amended C8 statement: a published row stays
non-pending across a MarkAsFailed, a Cleanup and a FetchPending. -/
theorem outbox_published_never_pending_witness :
    (∀ m0, UMWOutbox.Op.save m0 ∈
        ([.markFailed "a" "boom", .cleanup 100, .fetchPending 5] : List UMWOutbox.Op) →
      m0.id ≠ "a") ∧
    UMW.alookup (UMWOutbox.run UMWOutbox.emptyRepo
        [.save UMWOutbox.cexMsg, .markPublished "a" 5]).messages "a" =
      some ⟨"a", "command", "e-1", "user.create", "p", "entity.commands",
        .published, 0, some 5, 0, ""⟩ ∧
    (⟨"a", "command", "e-1", "user.create", "p", "entity.commands",
        .published, 0, some 5, 0, ""⟩ : UMWOutbox.Message).status = .published ∧
    ∀ m1, UMW.alookup (UMWOutbox.run
        (UMWOutbox.run UMWOutbox.emptyRepo [.save UMWOutbox.cexMsg, .markPublished "a" 5])
        [.markFailed "a" "boom", .cleanup 100, .fetchPending 5]).messages "a" = some m1 →
      m1.status ≠ .pending := by
  have hnosave : ∀ m0, UMWOutbox.Op.save m0 ∈
      ([.markFailed "a" "boom", .cleanup 100, .fetchPending 5] : List UMWOutbox.Op) →
      m0.id ≠ "a" := by
    intro m0 hm0
    simp at hm0
  refine ⟨hnosave, by decide, rfl, ?_⟩
  exact outbox_published_never_pending _ _ "a"
    ⟨"a", "command", "e-1", "user.create", "p", "entity.commands",
      .published, 0, some 5, 0, ""⟩ hnosave (by decide) rfl

namespace UMWHub

/-- Lookup through putClient touches only the written key. -/
theorem alookup_putClient (cs : List (String × HClient)) (cid k : String)
    (c : HClient) :
    UMW.alookup (putClient cs cid c) k =
      if k = cid then (UMW.alookup cs k).map (fun _ => c) else UMW.alookup cs k :=
  UMW.alookup_map_ite cs cid k (fun _ => c)

/-- Full behaviour of the broadcast member loop when exactly the session
`f` (present, with a full buffer) is saturated and every other member is
registered with buffer room: `f` keeps its buffer and stays registered,
the drop counter rises by one exactly when `f` is a member, every
delivery appends the message, and non-members are untouched. -/
theorem broadcastLoop_spec (msg : UMW.Bytes) (f : String) (cf : HClient) :
    ∀ (members : List String) (cs : List (String × HClient)) (succ drop : Nat),
      members.Nodup →
      UMW.alookup cs f = some cf →
      cf.sendCap ≤ cf.send.length →
      (∀ cid ∈ members, cid ≠ f →
        ∃ c, UMW.alookup cs cid = some c ∧ c.send.length < c.sendCap) →
      UMW.alookup (broadcastLoop msg members cs succ drop).1 f = some cf ∧
      (broadcastLoop msg members cs succ drop).2.2 =
        (if f ∈ members then drop + 1 else drop) ∧
      (broadcastLoop msg members cs succ drop).2.1 =
        succ + (members.length - (if f ∈ members then 1 else 0)) ∧
      (∀ cid, cid ≠ f → ∀ c, UMW.alookup cs cid = some c →
        UMW.alookup (broadcastLoop msg members cs succ drop).1 cid =
          (if cid ∈ members then some { c with send := c.send ++ [msg] } else some c)) := by
  intro members
  induction members with
  | nil =>
    intro cs succ drop _ hcf _ _
    refine ⟨hcf, by simp [broadcastLoop], by simp [broadcastLoop], ?_⟩
    intro cid hne c hc
    simp [broadcastLoop, hc]
  | cons hd tl ih =>
    intro cs succ drop hnodup hcf hfull hothers
    have hhd : hd ∉ tl := (List.nodup_cons.mp hnodup).1
    have htl : tl.Nodup := (List.nodup_cons.mp hnodup).2
    by_cases hhf : hd = f
    · subst hhf
      have hstep : broadcastLoop msg (hd :: tl) cs succ drop =
          broadcastLoop msg tl cs succ (drop + 1) := by
        simp only [broadcastLoop, hcf]
        rw [if_neg (Nat.not_lt.mpr hfull)]
      rw [hstep]
      obtain ⟨ha, hb, hc2, hd2⟩ := ih cs succ (drop + 1) htl hcf hfull
        (fun cid hcid hne => hothers cid (List.mem_cons_of_mem _ hcid) hne)
      refine ⟨ha, ?_, ?_, ?_⟩
      · rw [hb, if_neg hhd, if_pos (List.mem_cons_self _ _)]
      · rw [hc2, if_neg hhd, if_pos (List.mem_cons_self _ _)]
        simp
      · intro cid hne c hc
        rw [hd2 cid hne c hc]
        by_cases hct : cid ∈ tl
        · rw [if_pos hct, if_pos (List.mem_cons_of_mem _ hct)]
        · rw [if_neg hct, if_neg (by simp [List.mem_cons, hne, hct])]
    · obtain ⟨c, hc, hspace⟩ := hothers hd (List.mem_cons_self _ _) hhf
      have hstep : broadcastLoop msg (hd :: tl) cs succ drop =
          broadcastLoop msg tl (putClient cs hd { c with send := c.send ++ [msg] })
            (succ + 1) drop := by
        simp only [broadcastLoop, hc]
        rw [if_pos hspace]
      rw [hstep]
      have hfhd : ¬ f = hd := fun hh => hhf hh.symm
      have hcf2 : UMW.alookup (putClient cs hd { c with send := c.send ++ [msg] }) f =
          some cf := by
        rw [alookup_putClient, if_neg hfhd, hcf]
      have hothers2 : ∀ cid ∈ tl, cid ≠ f →
          ∃ c0, UMW.alookup (putClient cs hd { c with send := c.send ++ [msg] }) cid =
            some c0 ∧ c0.send.length < c0.sendCap := by
        intro cid hcid hne
        have hcidhd : ¬ cid = hd := fun hh => hhd (hh ▸ hcid)
        rw [alookup_putClient, if_neg hcidhd]
        exact hothers cid (List.mem_cons_of_mem _ hcid) hne
      obtain ⟨ha, hb, hc2, hd2⟩ := ih (putClient cs hd { c with send := c.send ++ [msg] })
        (succ + 1) drop htl hcf2 hfull hothers2
      refine ⟨ha, ?_, ?_, ?_⟩
      · rw [hb]
        by_cases hf2 : f ∈ tl
        · rw [if_pos hf2, if_pos (List.mem_cons_of_mem _ hf2)]
        · rw [if_neg hf2, if_neg (by simp [List.mem_cons, hfhd, hf2])]
      · rw [hc2]
        by_cases hf2 : f ∈ tl
        · have hlen : 1 ≤ tl.length := List.length_pos.mpr (List.ne_nil_of_mem hf2)
          rw [if_pos hf2, if_pos (List.mem_cons_of_mem _ hf2)]
          simp only [List.length_cons]
          omega
        · rw [if_neg hf2, if_neg (by simp [List.mem_cons, hfhd, hf2])]
          simp only [List.length_cons]
          omega
      · intro cid hne c0 hc0
        by_cases hcid : cid = hd
        · subst hcid
          have hcc : c0 = c := by
            rw [hc] at hc0
            exact (Option.some.inj hc0).symm
          subst hcc
          have hin : UMW.alookup (putClient cs cid { c0 with send := c0.send ++ [msg] }) cid =
              some { c0 with send := c0.send ++ [msg] } := by
            rw [alookup_putClient, if_pos rfl, hc0]
            rfl
          rw [hd2 cid hne _ hin, if_neg hhd, if_pos (List.mem_cons_self _ _)]
        · have hsame : UMW.alookup (putClient cs hd { c with send := c.send ++ [msg] }) cid =
              some c0 := by
            rw [alookup_putClient, if_neg hcid, hc0]
          rw [hd2 cid hne c0 hsame]
          by_cases hct : cid ∈ tl
          · rw [if_pos hct, if_pos (List.mem_cons_of_mem _ hct)]
          · rw [if_neg hct, if_neg (by simp [List.mem_cons, hcid, hct])]

end UMWHub

/-- C9: for a broadcast to a room, a member session whose bounded
outbound buffer is full has the message dropped (its buffer and registry
entry are untouched — the session is not closed) and the drop counter
rises by exactly one; the loop never blocks and all other members (each
with buffer room) receive the message appended to their buffers; the
room map is unchanged. -/
theorem hub_backpressure (h : UMWHub.HubState) (room : String) (msg : UMW.Bytes)
    (members : List String) (f : String) (cf : UMWHub.HClient)
    (hroom : UMW.alookup h.rooms room = some members)
    (hnodup : members.Nodup)
    (hf : f ∈ members)
    (hcf : UMW.alookup h.clients f = some cf)
    (hfull : cf.sendCap ≤ cf.send.length)
    (hothers : ∀ cid ∈ members, cid ≠ f →
      ∃ c, UMW.alookup h.clients cid = some c ∧ c.send.length < c.sendCap) :
    UMW.alookup (UMWHub.broadcastMessage h room msg).1.clients f = some cf ∧
    (UMWHub.broadcastMessage h room msg).2.2 = 1 ∧
    (UMWHub.broadcastMessage h room msg).2.1 = members.length - 1 ∧
    (∀ cid ∈ members, cid ≠ f → ∀ c, UMW.alookup h.clients cid = some c →
      UMW.alookup (UMWHub.broadcastMessage h room msg).1.clients cid =
        some { c with send := c.send ++ [msg] }) ∧
    (UMWHub.broadcastMessage h room msg).1.rooms = h.rooms := by
  have hbm : UMWHub.broadcastMessage h room msg =
      ({ h with clients := (UMWHub.broadcastLoop msg members h.clients 0 0).1 },
        (UMWHub.broadcastLoop msg members h.clients 0 0).2.1,
        (UMWHub.broadcastLoop msg members h.clients 0 0).2.2) := by
    unfold UMWHub.broadcastMessage
    rw [hroom]
  obtain ⟨ha, hb, hc2, hd2⟩ :=
    UMWHub.broadcastLoop_spec msg f cf members h.clients 0 0 hnodup hcf hfull hothers
  rw [hbm]
  refine ⟨ha, ?_, ?_, ?_, rfl⟩
  · rw [hb, if_pos hf]
  · rw [hc2, if_pos hf]
    simp
  · intro cid hcid hne c hc
    rw [hd2 cid hne c hc, if_pos hcid]

/-- Witness for C9: room of three sessions, the middle one saturated. -/
theorem hub_backpressure_witness :
    let ca : UMWHub.HClient := ⟨"u-a", [], 2⟩
    let cfc : UMWHub.HClient := ⟨"u-f", [[1], [2]], 2⟩
    let cb : UMWHub.HClient := ⟨"u-b", [[9]], 2⟩
    let h : UMWHub.HubState :=
      ⟨[("a", ca), ("f", cfc), ("b", cb)], [("room1", ["a", "f", "b"])]⟩
    UMW.alookup h.rooms "room1" = some ["a", "f", "b"] ∧
    (["a", "f", "b"] : List String).Nodup ∧
    "f" ∈ (["a", "f", "b"] : List String) ∧
    UMW.alookup h.clients "f" = some cfc ∧
    cfc.sendCap ≤ cfc.send.length ∧
    (UMW.alookup (UMWHub.broadcastMessage h "room1" [7]).1.clients "f" = some cfc ∧
      (UMWHub.broadcastMessage h "room1" [7]).2.2 = 1 ∧
      (UMWHub.broadcastMessage h "room1" [7]).2.1 =
        (["a", "f", "b"] : List String).length - 1 ∧
      (∀ cid ∈ (["a", "f", "b"] : List String), cid ≠ "f" →
        ∀ c, UMW.alookup h.clients cid = some c →
          UMW.alookup (UMWHub.broadcastMessage h "room1" [7]).1.clients cid =
            some { c with send := c.send ++ [[7]] }) ∧
      (UMWHub.broadcastMessage h "room1" [7]).1.rooms = h.rooms) := by
  intro ca cfc cb h
  have hothers : ∀ cid ∈ (["a", "f", "b"] : List String), cid ≠ "f" →
      ∃ c, UMW.alookup h.clients cid = some c ∧ c.send.length < c.sendCap := by
    intro cid hcid hne
    simp only [List.mem_cons, List.not_mem_nil, or_false] at hcid
    rcases hcid with rfl | rfl | rfl
    · exact ⟨ca, rfl, by decide⟩
    · exact absurd rfl hne
    · exact ⟨cb, rfl, by decide⟩
  exact ⟨rfl, by decide, by decide, rfl, by decide,
    hub_backpressure h "room1" [7] ["a", "f", "b"] "f" cfc rfl (by decide) (by decide)
      rfl (by decide) hothers⟩
